import Mathlib

/-!
Verification of the plum workflow-engine core against its specification.

Shallow embedding of the relevant parts of the source tree:
  * `plum/process_states.py`  — the process lifecycle state machine,
  * `plum/loop/object.py`     — `Task.tick`,
  * `plum/loop/futures.py`    — the loop-level `Future`,
  * `plum/process_manager.py` — the manager-level `Future`,
  * `plum/engine/serial.py` and `plum/execution_engine.py` — engine futures,
  * `plum/event.py`           — `EventEmitter` and `WaitOnEvent`,
  * `plum/process_spec.py`    — `ProcessSpec`,
  * `plum/wait.py`            — `WaitOn`.

Python strings are modelled as `List Char`, Python exceptions as an explicit
error type, and fallible methods return `Except`.  Collaborators whose source
is not in the tree (the event loop class, `Process._set_state`, the base
`plum.util.Future`) are modelled from the specification and marked as such in
their doc comments.
-/

namespace Plum

/-- The Python exceptions that the embedded code can raise. -/
inductive PyError where
  | runtimeError (msg : String)
  | typeError (msg : String)
  | valueError (msg : String)
  | assertionError (msg : String)
  | invalidState
  | keyError
deriving DecidableEq

/-- Python values as far as the embedded code inspects them: `None`, plain
data, `WaitOn` instances (identified by an id), `Task.Terminated` named tuples
and general tuples. -/
inductive PyVal where
  | none
  | boolV (b : Bool)
  | intV (n : Int)
  | strV (s : String)
  | waitOn (w : Nat)
  | terminatedV (result : List PyVal)
  | tupleV (xs : List PyVal)

/-- The Python check `v is None`. -/
def pyIsNone : PyVal → Bool
  | .none => true
  | _ => false

/-- `isinstance(v, WaitOn)`. -/
def isinstanceWaitOn : PyVal → Bool
  | .waitOn _ => true
  | _ => false

/-- `isinstance(v, Task.Terminated)`. -/
def isinstanceTerminated : PyVal → Bool
  | .terminatedV _ => true
  | _ => false

/-- `isinstance(v, tuple)`. -/
def isinstanceTuple : PyVal → Bool
  | .tupleV _ => true
  | _ => false

/-- `len(v)` for a tuple (only ever applied to tuples in the embedded code). -/
def tupleLen : PyVal → Nat
  | .tupleV xs => xs.length
  | _ => 0

/-- `v[i]` for a tuple (only ever applied in-bounds in the embedded code). -/
def tupleGet : PyVal → Nat → PyVal
  | .tupleV xs, i => xs.getD i PyVal.none
  | _, _ => PyVal.none

/-! ### The process lifecycle state machine (`plum/process_states.py`) -/

/-- The `ProcessState` enum (`plum/process_states.py`). -/
inductive ProcessState where
  | CREATED
  | RUNNING
  | WAITING
  | STOPPED
  | FAILED
deriving DecidableEq

/-- `str(state)` of the Python enum, as used in error messages. -/
def processStateStr : ProcessState → String
  | .CREATED => "ProcessState.CREATED"
  | .RUNNING => "ProcessState.RUNNING"
  | .WAITING => "ProcessState.WAITING"
  | .STOPPED => "ProcessState.STOPPED"
  | .FAILED => "ProcessState.FAILED"

/-- A state object of the state machine, with the data each `State` subclass
carries (`plum/process_states.py`).  `running` keeps the `exec_func`, `waiting`
keeps the wait on and the callback (`PyVal.none` models a null callback),
`stopped` keeps the abort flag and message, `failed` keeps the exception. -/
inductive ProcState where
  | created
  | running (exec_func : PyVal) (args : List PyVal)
  | waiting (wait_on : PyVal) (callback : PyVal)
  | stopped (abort : Bool) (abort_msg : Option String)
  | failed (exc : PyError)

/-- The lifecycle hooks fired by the entry actions. -/
inductive LifecycleEvent where
  | on_create
  | on_start
  | on_run
  | on_resume
  | on_wait
  | on_abort
  | on_finish
  | on_stop
  | on_fail
deriving DecidableEq

/-- Error message of `Running.enter` for an illegal previous state. -/
def cannotEnterRunningMsg (previous : ProcessState) : String :=
  "Cannot enter RUNNING from '" ++ processStateStr previous ++ "'"

/-- Error message of `Stopped.enter` for an illegal previous state. -/
def cannotEnterStoppedMsg (previous : ProcessState) : String :=
  "Cannot enter STOPPED from '" ++ processStateStr previous ++ "'"

/-- Embeds `Running.enter` (`plum/process_states.py:110-122`): fires
`on_start` from CREATED, `on_resume` from WAITING, nothing extra from RUNNING,
raises `RuntimeError` otherwise, then always fires `on_run`. -/
def runningEnter (previous : ProcessState) : Except PyError (List LifecycleEvent) :=
  match previous with
  | .CREATED => .ok [.on_start, .on_run]
  | .WAITING => .ok [.on_resume, .on_run]
  | .RUNNING => .ok [.on_run]
  | p => .error (.runtimeError (cannotEnterRunningMsg p))

/-- Embeds `Stopped.enter` (`plum/process_states.py:214-224`): fires
`on_abort` when aborting, otherwise requires the previous state to be RUNNING
and fires `on_finish`; always fires `on_stop` afterwards. -/
def stoppedEnter (abort : Bool) (previous : ProcessState) :
    Except PyError (List LifecycleEvent) :=
  if abort then .ok [.on_abort, .on_stop]
  else if previous = .RUNNING then .ok [.on_finish, .on_stop]
  else .error (.runtimeError (cannotEnterStoppedMsg previous))

/-- Entry action of each state object: `Created.enter` fires `on_create`,
`Waiting.enter` fires `on_wait`, `Failed.enter` fires `on_fail` (exceptions
inside `on_fail` are caught and logged there, so entering FAILED never
raises); `Running.enter` and `Stopped.enter` are the functions above. -/
def enterState (s : ProcState) (previous : ProcessState) :
    Except PyError (List LifecycleEvent) :=
  match s with
  | .created => .ok [.on_create]
  | .running _ _ => runningEnter previous
  | .waiting _ _ => .ok [.on_wait]
  | .stopped abort _ => stoppedEnter abort previous
  | .failed _ => .ok [.on_fail]

/-- Modelled from the spec: `Process._set_state` lives in `plum/process.py`,
which is not in the source tree; per section 4.5 a transition invokes the new
state's entry action with the previous state's label, and the entry action
fires the listed lifecycle events.  The result is the new state object and the
events fired, or the exception the entry action raised. -/
def set_state (previous : ProcessState) (new : ProcState) :
    Except PyError (ProcState × List LifecycleEvent) :=
  match enterState new previous with
  | .ok evs => .ok (new, evs)
  | .error e => .error e

/-- Embeds `Running._is_wait_retval` (`plum/process_states.py:85-97`): true
iff the value is a 2-tuple whose first element is a `WaitOn`. -/
def is_wait_retval (retval : PyVal) : Bool :=
  isinstanceTuple retval && tupleLen retval == 2 &&
    isinstanceWaitOn (tupleGet retval 0)

/-- Embeds `Running.execute` (`plum/process_states.py:124-132`), abstracting
the call `self._exec_func(*args)` by its return value: a wait return value
moves the process to WAITING with the tuple's pieces, anything else moves it
to STOPPED.  The state being executed is RUNNING, so the transitions happen
with previous label RUNNING. -/
def runningExecute (retval : PyVal) :
    Except PyError (ProcState × List LifecycleEvent) :=
  if is_wait_retval retval then
    set_state .RUNNING (.waiting (tupleGet retval 0) (tupleGet retval 1))
  else
    set_state .RUNNING (.stopped false none)

/-- Embeds `Waiting._wait_on_done` (`plum/process_states.py:198-203`): when
the wait's future completes, a null callback moves the process to STOPPED
(not aborting), otherwise to RUNNING with the callback as the exec function.
The transition happens while the process is in WAITING. -/
def wait_on_done (wait_on callback : PyVal) :
    Except PyError (ProcState × List LifecycleEvent) :=
  if pyIsNone callback then
    set_state .WAITING (.stopped false none)
  else
    set_state .WAITING (.running callback [wait_on])

/-! ### `WaitOn` outcome protocol (`plum/wait.py`) -/

/-- The saved part of a `WaitOn`: the outcome, `none` while unresolved
(`plum/wait.py:46-47`). -/
structure WaitOnState where
  outcome : Option (Bool × Option String)
deriving DecidableEq

/-- A freshly constructed `WaitOn` (`WaitOn.__init__`). -/
def waitOnInit : WaitOnState := ⟨none⟩

/-- Embeds `WaitOn.is_done` (`plum/wait.py:69-76`). -/
def wait_is_done (w : WaitOnState) : Bool := w.outcome.isSome

/-- Embeds `WaitOn.get_outcome` (`plum/wait.py:78-87`). -/
def wait_get_outcome (w : WaitOnState) : Option (Bool × Option String) :=
  w.outcome

/-- Embeds `WaitOn.done` (`plum/wait.py:162-178`): asserts the outcome was not
already set, then stores `(success, msg)`. -/
def wait_done (w : WaitOnState) (success : Bool) (msg : Option String) :
    Except PyError WaitOnState :=
  if w.outcome = none then .ok ⟨some (success, msg)⟩
  else .error (.assertionError "Cannot call done more than once")

/-- Runs a sequence of `done` calls against a wait-on state, stopping at the
first assertion failure. -/
def runDoneFrom (w : WaitOnState) :
    List (Bool × Option String) → Except PyError WaitOnState
  | [] => .ok w
  | c :: cs =>
    match wait_done w c.1 c.2 with
    | .ok w2 => runDoneFrom w2 cs
    | .error e => .error e

/-- Runs a sequence of `done` calls against a fresh `WaitOn`. -/
def runDone (calls : List (Bool × Option String)) : Except PyError WaitOnState :=
  runDoneFrom waitOnInit calls

/-! ### `ProcessSpec` (`plum/process_spec.py`) -/

/-- An input or output port, tracked by identity only; the embedded code only
ever checks `isinstance(port, InputPort)` / `isinstance(port, OutputPort)`. -/
inductive Port where
  | input (id : Nat)
  | output (id : Nat)
deriving DecidableEq

/-- The fields of `ProcessSpec` (`plum/process_spec.py:19-24`).  Validator
functions are tracked by an id. -/
structure ProcessSpecS where
  inputs : List (List Char × Port)
  outputs : List (List Char × Port)
  deterministic : Option Bool
  validator : Option Nat
  sealed : Bool
deriving DecidableEq

/-- `d[name] = port` on an association list, overwriting an existing entry. -/
def assocSet (m : List (List Char × Port)) (name : List Char) (port : Port) :
    List (List Char × Port) :=
  if m.any (fun p => p.1 = name) then
    m.map (fun p => if p.1 = name then (name, port) else p)
  else m ++ [(name, port)]

/-- `d.pop(name)`: the list without the entry, or `KeyError`. -/
def assocPop (m : List (List Char × Port)) (name : List Char) :
    Except PyError (List (List Char × Port)) :=
  if m.any (fun p => p.1 = name) then .ok (m.filter (fun p => ¬ p.1 = name))
  else .error .keyError

/-- Embeds `ProcessSpec.seal` (`plum/process_spec.py:26-30`). -/
def specSeal (s : ProcessSpecS) : ProcessSpecS := { s with sealed := true }

/-- Embeds `ProcessSpec.input_port` (`plum/process_spec.py:108-116`): raises
when sealed, type-checks the port, then stores it. -/
def input_port (s : ProcessSpecS) (name : List Char) (port : Port) :
    Except PyError ProcessSpecS :=
  if s.sealed then
    .error (.runtimeError "Cannot add an input after spec is sealed")
  else match port with
    | .input i => .ok { s with inputs := assocSet s.inputs name (.input i) }
    | .output _ => .error (.typeError "Input port must be an instance of InputPort")

/-- Embeds `ProcessSpec.remove_input` (`plum/process_spec.py:118-121`). -/
def remove_input (s : ProcessSpecS) (name : List Char) :
    Except PyError ProcessSpecS :=
  if s.sealed then
    .error (.runtimeError "Cannot remove an input after spec is sealed")
  else match assocPop s.inputs name with
    | .ok m => .ok { s with inputs := m }
    | .error e => .error e

/-- Embeds `ProcessSpec.output_port` (`plum/process_spec.py:147-155`). -/
def output_port (s : ProcessSpecS) (name : List Char) (port : Port) :
    Except PyError ProcessSpecS :=
  if s.sealed then
    .error (.runtimeError "Cannot add an output after spec is sealed")
  else match port with
    | .output i => .ok { s with outputs := assocSet s.outputs name (.output i) }
    | .input _ => .error (.typeError "Output port must be an instance of OutputPort")

/-- Embeds `ProcessSpec.remove_output` (`plum/process_spec.py:167-170`); the
error message about inputs is the source's own (a copy-paste there). -/
def remove_output (s : ProcessSpecS) (name : List Char) :
    Except PyError ProcessSpecS :=
  if s.sealed then
    .error (.runtimeError "Cannot remove an input after spec is sealed")
  else match assocPop s.outputs name with
    | .ok m => .ok { s with outputs := m }
    | .error e => .error e

/-- Embeds `ProcessSpec.set_deterministic` (`plum/process_spec.py:182-193`):
asserts the spec is not sealed, then sets the flag. -/
def set_deterministic (s : ProcessSpecS) (b : Bool) :
    Except PyError ProcessSpecS :=
  if s.sealed then
    .error (.assertionError "Cannot change the spec after it is sealed")
  else .ok { s with deterministic := some b }

/-- Embeds `ProcessSpec.validator` (`plum/process_spec.py:195-208`): stores
the validator function.  Note the source performs no sealed check here. -/
def validatorSet (s : ProcessSpecS) (fn : Nat) : Except PyError ProcessSpecS :=
  .ok { s with validator := some fn }

end Plum

namespace Plum

/-! ### Engine-level futures (`plum/engine/serial.py`, `plum/execution_engine.py`) -/

/-- The fields shared by both `SerialEngine.Future` classes: `_outputs`
(`None` until set) and `_exception` (`None` unless the wrapped call raised). -/
structure EngineFuture where
  outputs : Option PyVal
  exc : Option PyError

/-- The constructor of both `SerialEngine.Future` classes: run the wrapped
call; on success store its outputs, on an exception store the exception and
leave the outputs as `None`. -/
def mkEngineFuture (run : Except PyError PyVal) : EngineFuture :=
  match run with
  | .ok outs => { outputs := some outs, exc := none }
  | .error e => { outputs := none, exc := some e }

/-- Embeds `SerialEngine.Future.result` of `plum/engine/serial.py:67-72`:
re-raises the stored exception, otherwise returns the outputs. -/
def serialFutureResult (f : EngineFuture) : Except PyError (Option PyVal) :=
  match f.exc with
  | some e => .error e
  | none => .ok f.outputs

/-- Embeds `SerialEngine.Future.result` of `plum/execution_engine.py:183-184`:
returns the outputs unconditionally, never re-raising. -/
def engineFutureResult (f : EngineFuture) : Except PyError (Option PyVal) :=
  .ok f.outputs

/-- Embeds `SerialEngine.Future.exception` (both files): returns the stored
exception. -/
def engineFutureException (f : EngineFuture) : Option PyError := f.exc

/-! ### `Task.tick` (`plum/loop/object.py`) -/

/-- The behaviour of `self.step()` when `tick` calls it: either it returns a
value or it raises. -/
inductive StepBehavior where
  | returns (r : PyVal)
  | raises (e : PyError)

/-- A record of one `tick` call: whether `step` was invoked, which loop and
future operations `tick` performed, and the exception propagating out of
`tick`, if any. -/
structure TickResult where
  invokedStep : Bool
  removedFromLoop : Bool
  stoppedTicking : Bool
  setException : Option PyError
  setResult : Option PyVal
  attachedWaitOnCallback : Bool
  raised : Option PyError

/-- The `TypeError` Python raises for `self.loop().remove()` because the
mandatory object argument is missing. -/
def removeArityMsg : String := "remove() takes exactly 2 arguments (1 given)"

/-- `result.result` of a `Task.Terminated` named tuple. -/
def terminatedResult : PyVal → List PyVal
  | .terminatedV r => r
  | _ => []

/-- Embeds `Task.tick` (`plum/loop/object.py:85-102`).  The event loop class
is not in the source tree; it is modelled from the spec, whose section 4.3
gives `remove(obj)` a mandatory object argument (as does the call
`self.loop().remove(self)` in the exception branch of this very method).  The
cancelled branch therefore performs `self.loop().remove()` with no argument,
which raises a `TypeError` before the `try` block is entered; note the source
has no `return` in that branch.  Otherwise `step` runs inside `try`: an
exception removes the task and stores the exception in the future; a `WaitOn`
return acquires its future, attaches the done callback and stops ticking; a
`Terminated` return stores the result in the future and removes the task. -/
def tick (futureCancelled : Bool) (sb : StepBehavior) : TickResult :=
  if futureCancelled then
    { invokedStep := false, removedFromLoop := false, stoppedTicking := false,
      setException := none, setResult := none, attachedWaitOnCallback := false,
      raised := some (.typeError removeArityMsg) }
  else
    match sb with
    | .raises e =>
      { invokedStep := true, removedFromLoop := true, stoppedTicking := false,
        setException := some e, setResult := none,
        attachedWaitOnCallback := false, raised := none }
    | .returns r =>
      { invokedStep := true,
        removedFromLoop := isinstanceTerminated r,
        stoppedTicking := isinstanceWaitOn r,
        setException := none,
        setResult := if isinstanceTerminated r then
            some (.tupleV (terminatedResult r)) else none,
        attachedWaitOnCallback := isinstanceWaitOn r,
        raised := none }

/-! ### The loop-level `Future` (`plum/loop/futures.py`) -/

/-- Modelled from the spec: the base class `plum.util.Future` is not in the
source tree (the `plum/util.py` present has no `Future`); per section 4.2 it
keeps `state` in PENDING, CANCELLED or FINISHED with at most one of the result
and the exception, set only in FINISHED. -/
inductive FutState where
  | PENDING
  | CANCELLED
  | FINISHED
deriving DecidableEq

/-- A loop-level future: the base-class fields plus the `_callbacks` list of
`plum/loop/futures.py` (callbacks tracked by an id). -/
structure LoopFuture where
  state : FutState
  result : Option PyVal
  exc : Option PyError
  callbacks : List Nat

/-- A fresh future (`Future.__init__`). -/
def pendingFuture : LoopFuture :=
  { state := .PENDING, result := none, exc := none, callbacks := [] }

/-- Modelled from the spec: `done()` of the base future is true in CANCELLED
and FINISHED. -/
def futureDone (f : LoopFuture) : Bool :=
  match f.state with
  | .PENDING => false
  | _ => true

/-- `loop.call_soon(fn, self)`: the loop's deferred queue with `fn` appended.
The queue is modelled as the ordered list of enqueued callback ids. -/
def call_soon (q : List Nat) (fn : Nat) : List Nat := q ++ [fn]

/-- Embeds `Future._schedule_callbacks` (`plum/loop/futures.py:39-51`): copy
the callback list, clear it, and `call_soon` each entry in order. -/
def schedule_callbacks (f : LoopFuture) (q : List Nat) : LoopFuture × List Nat :=
  if f.callbacks = [] then (f, q)
  else ({ f with callbacks := [] }, f.callbacks.foldl call_soon q)

/-- Embeds `Future.add_done_callback` (`plum/loop/futures.py:25-34`): on a
done future the callback is enqueued via `loop.call_soon`, otherwise it is
appended to the callback list. -/
def add_done_callback (f : LoopFuture) (q : List Nat) (fn : Nat) :
    LoopFuture × List Nat :=
  if futureDone f then (f, call_soon q fn)
  else ({ f with callbacks := f.callbacks ++ [fn] }, q)

/-- Embeds `Future.set_result` (`plum/loop/futures.py:17-19`) on top of the
spec-modelled base transition (legal only from PENDING, moves to FINISHED),
then schedules the callbacks. -/
def future_set_result (f : LoopFuture) (q : List Nat) (v : PyVal) :
    Except PyError (LoopFuture × List Nat) :=
  if f.state = .PENDING then
    .ok (schedule_callbacks { f with state := .FINISHED, result := some v } q)
  else .error .invalidState

/-- Embeds `Future.set_exception` (`plum/loop/futures.py:21-23`) on top of the
spec-modelled base transition. -/
def future_set_exception (f : LoopFuture) (q : List Nat) (e : PyError) :
    Except PyError (LoopFuture × List Nat) :=
  if f.state = .PENDING then
    .ok (schedule_callbacks { f with state := .FINISHED, exc := some e } q)
  else .error .invalidState

/-- Embeds `Future.cancel` (`plum/loop/futures.py:10-15`) on top of the
spec-modelled base transition (true iff the state was PENDING), scheduling the
callbacks on success. -/
def future_cancel (f : LoopFuture) (q : List Nat) :
    Bool × LoopFuture × List Nat :=
  if f.state = .PENDING then
    let p := schedule_callbacks { f with state := .CANCELLED } q
    (true, p.1, p.2)
  else (false, f, q)

/-- Registers a whole list of callbacks one after the other. -/
def addAll (fq : LoopFuture × List Nat) (fns : List Nat) :
    LoopFuture × List Nat :=
  fns.foldl (fun p fn => add_done_callback p.1 p.2 fn) fq

/-- What became of a callback handed to the process-manager future's
`add_done_callback`. -/
inductive CallbackDisposition where
  | invokedSynchronously (fn : Nat)
  | appendedToList (fn : Nat)
deriving DecidableEq

/-- Embeds `Future.add_done_callback` of `plum/process_manager.py:104-108`:
when the process has already terminated the callback is invoked synchronously
(`fn(self)`), otherwise it is appended to the callback list. -/
def mgr_add_done_callback (terminated : Bool) (fn : Nat) : CallbackDisposition :=
  if terminated then .invokedSynchronously fn else .appendedToList fn

end Plum

namespace Plum

/-! ### Wildcard patterns (`plum/event.py`) -/

/-- Embeds `EventEmitter.contains_wildcard` (`plum/event.py:15-24`). -/
def containsWildcard (s : List Char) : Bool :=
  s.any (fun c => c == '*' || c == '#')

/-- The translation of one wildcard character into regex characters.
`_add_wildcard_listener` (`plum/event.py:145`) applies
`replace('.', '\.')`, then `replace('*', '.*')`, then `replace('#', '.+')`:
only dots are escaped; every other character is passed through unchanged and
keeps whatever meaning it has in a regex.  The three sequential replaces act
per character of the original string (no replacement output contains a
character that a later replace rewrites in place), so they equal this single
character map. -/
def escTr (c : Char) : List Char :=
  if c = '.' then ['\\', '.']
  else if c = '*' then ['.', '*']
  else if c = '#' then ['.', '+']
  else [c]

/-- Embeds the regex-string construction of `_add_wildcard_listener`
(`plum/event.py:144-146`). -/
def wildcardToRegex (s : List Char) : List Char := (s.map escTr).flatten

/-- A regex atom of the modelled fragment: a literal character or `.` (any
character). -/
inductive RAtom where
  | litA (c : Char)
  | anyA
deriving DecidableEq

/-- A regex element: an atom, an atom under `*` (zero or more) or an atom
under `+` (one or more). -/
inductive RElem where
  | once (a : RAtom)
  | starA (a : RAtom)
  | plusA (a : RAtom)
deriving DecidableEq

/-- Parses a regex string into elements, modelling the fragment of Python
regexes that `re.compile` receives here: sequences of atoms — an escaped
character `\c`, the any-character `.`, or a plain character — each optionally
followed by the postfix `*` or `+`.  Metacharacters outside this fragment
(`?`, `(`, `[`, `|`, `{` …) are not modelled and are kept out of every
theorem's domain. -/
def parseRegex : List Char → List RElem
  | [] => []
  | [c] =>
    if c = '\\' then [.once (.litA '\\')]
    else if c = '.' then [.once .anyA]
    else [.once (.litA c)]
  | c :: c2 :: rest =>
    if c = '\\' then
      match rest with
      | [] => [.once (.litA c2)]
      | c3 :: rest3 =>
        if c3 = '*' then .starA (.litA c2) :: parseRegex rest3
        else if c3 = '+' then .plusA (.litA c2) :: parseRegex rest3
        else .once (.litA c2) :: parseRegex (c3 :: rest3)
    else
      let a : RAtom := if c = '.' then .anyA else .litA c
      if c2 = '*' then .starA a :: parseRegex rest
      else if c2 = '+' then .plusA a :: parseRegex rest
      else .once a :: parseRegex (c2 :: rest)

/-- Whether a regex atom matches one character. -/
def atomMatch : RAtom → Char → Bool
  | .litA c, x => x == c
  | .anyA, _ => true

/-- The star loop: `a*` followed by a continuation `k` succeeds when some
number of `a`-matching characters can be consumed so that `k` accepts the
remainder. -/
def starLoop (a : RAtom) (k : List Char → Bool) : List Char → Bool
  | [] => k []
  | x :: tl => k (x :: tl) || (atomMatch a x && starLoop a k tl)

/-- Matching of parsed regex elements against a string, with `re.match`
semantics: the elements must consume a prefix of the string, the end is not
anchored. -/
def rmatchE : List RElem → List Char → Bool
  | [], _ => true
  | .once a :: ts, xs =>
    match xs with
    | [] => false
    | x :: tl => atomMatch a x && rmatchE ts tl
  | .starA a :: ts, xs => starLoop a (rmatchE ts) xs
  | .plusA a :: ts, xs =>
    match xs with
    | [] => false
    | x :: tl => atomMatch a x && starLoop a (rmatchE ts) tl

/-- Embeds `EventEmitter._wildcard_match` (`plum/event.py:176-177`): matching
the compiled regex of the wildcard string against the event. -/
def wildcardMatch (pattern target : List Char) : Bool :=
  rmatchE (parseRegex (wildcardToRegex pattern)) target

/-- The characters of the fixed event-name head `process.`. -/
def procHead : List Char := ['p', 'r', 'o', 'c', 'e', 's', 's', '.']

/-- The subscription pattern `process.<pid>.*`. -/
def pidPattern (pid : List Char) : List Char := procHead ++ pid ++ ['.', '*']

/-- The lifecycle event name `process.<pid>.<name>` fired by
`process_event_occurred` (`plum/event.py:256-258`). -/
def lifecycleEventName (pid name : List Char) : List Char :=
  procHead ++ pid ++ ['.'] ++ name

/-- A plain identifier character, as UUID pids are made of: alphanumeric, a
dash or an underscore.  Such a character is one grammar segment character (no
dot), is not a wildcard character, and is literal in a regex. -/
def plainChar (c : Char) : Prop := c.isAlphanum = true ∨ c = '-' ∨ c = '_'

instance (c : Char) : Decidable (plainChar c) := by
  unfold plainChar
  infer_instance

/-- The head of a character list, if any, is not a regex postfix operator. -/
def headSafe : List Char → Prop
  | [] => True
  | c :: _ => c ≠ '*' ∧ c ≠ '+'

/-- Boolean prefix test on character lists, the semantic yardstick for the
compiled `process.<pid>.*` pattern (the pattern characters come first, each
compared against the corresponding target character). -/
def listIsPref : List Char → List Char → Bool
  | [], _ => true
  | _ :: _, [] => false
  | x :: l, y :: s => y == x && listIsPref l s

/-! ### The event emitter (`plum/event.py`) -/

/-- What a listener does when it is called with `(emitter, event, body)`:
returns normally, raises a `TypeError` (as a wrong-signature call does), or
raises some other exception. -/
inductive LBeh where
  | ok
  | raisesTypeError
  | raisesValueError (msg : String)
deriving DecidableEq

/-- An entry of a listener set: a callable listener (with an id and its
behaviour when invoked) or a plain string mistakenly stored or passed where a
listener belongs. -/
inductive PyListener where
  | callbackL (id : Nat) (beh : LBeh)
  | strL (s : List Char)
deriving DecidableEq

/-- `listener(self, event, body)`: the exception it raises, if any.  Calling a
string raises a `TypeError` since strings are not callable. -/
def invokeListener : PyListener → Option PyError
  | .callbackL _ .ok => none
  | .callbackL _ .raisesTypeError => some (.typeError "wrong signature")
  | .callbackL _ (.raisesValueError m) => some (.valueError m)
  | .strL _ => some (.typeError "str object is not callable")

/-- The two listener mappings of `EventEmitter` (`plum/event.py:26-29`),
keyed by event string and pattern respectively.  Both are kept in insertion
order. -/
structure Emitter where
  wildcard : List (List Char × List PyListener)
  specific : List (List Char × List PyListener)

/-- The message of the `RuntimeError` that `event_occurred` raises when a
specific delivery fails with a `TypeError` (`plum/event.py:115-118`). -/
def failedDeliverMsg : String :=
  "Failed to deliver message, check that it takes three arguments"

/-- Delivery to the listeners of one wildcard set (`plum/event.py:101-104`):
`deliver_msg` is called with no exception handler, so the first exception
aborts the sweep and propagates.  Returns the listeners actually invoked and
the propagating exception, if any. -/
def deliverPlain : List PyListener → List PyListener × Option PyError
  | [] => ([], none)
  | l :: ls =>
    match invokeListener l with
    | none =>
      let p := deliverPlain ls
      (l :: p.1, p.2)
    | some e => ([l], some e)

/-- Delivery to the specific listeners (`plum/event.py:111-118`): each
`deliver_msg` runs in a `try` whose `except TypeError` raises the fatal
`RuntimeError`; any other exception propagates unchanged. -/
def deliverSpecific : List PyListener → List PyListener × Option PyError
  | [] => ([], none)
  | l :: ls =>
    match invokeListener l with
    | none =>
      let p := deliverSpecific ls
      (l :: p.1, p.2)
    | some (.typeError _) => ([l], some (.runtimeError failedDeliverMsg))
    | some e => ([l], some e)

/-- The wildcard sweep of `event_occurred` (`plum/event.py:100-104`): every
pattern set whose pattern matches the event is delivered to, in mapping
order; an exception aborts the sweep. -/
def deliverWildcards (event : List Char) :
    List (List Char × List PyListener) → List PyListener × Option PyError
  | [] => ([], none)
  | (pat, ls) :: rest =>
    if wildcardMatch pat event then
      let p := deliverPlain ls
      match p.2 with
      | some e => (p.1, some e)
      | none =>
        let q := deliverWildcards event rest
        (p.1 ++ q.1, q.2)
    else deliverWildcards event rest

/-- `self._specific_listeners[event]`, `KeyError` as `none`. -/
def lookupListeners (m : List (List Char × List PyListener)) (k : List Char) :
    Option (List PyListener) :=
  (m.find? (fun p => p.1 == k)).map (fun p => p.2)

/-- Embeds `EventEmitter.event_occurred` (`plum/event.py:96-118`): the
wildcard sweep runs first, then the specific listeners of the event.  Returns
the listeners invoked, in order, and the exception propagating out of the
call, if any. -/
def event_occurred (em : Emitter) (event : List Char) :
    List PyListener × Option PyError :=
  let w := deliverWildcards event em.wildcard
  match w.2 with
  | some e => (w.1, some e)
  | none =>
    match lookupListeners em.specific event with
    | none => (w.1, none)
    | some ls =>
      let p := deliverSpecific ls
      (w.1 ++ p.1, p.2)

/-! ### `stop_listening` and `WaitOnEvent` (`plum/event.py`) -/

/-- Discarding a listener from one listener set. -/
def discardListener (ls : List PyListener) (l : PyListener) : List PyListener :=
  ls.filter (fun x => ¬ x = l)

/-- Embeds `_remove_specific_listener` / `_remove_wildcard_listener` applied
across a whole mapping (`plum/event.py:148-174`): the listener is discarded
from every set and sets left empty are deleted. -/
def removeEverywhere (m : List (List Char × List PyListener)) (l : PyListener) :
    List (List Char × List PyListener) :=
  (m.map (fun p => (p.1, discardListener p.2 l))).filter
    (fun p => ¬ p.2 = [])

/-- Embeds `EventEmitter.stop_listening` with `event=None`
(`plum/event.py:46-60`): the listener is removed from all subscriptions. -/
def stop_listening_all (em : Emitter) (l : PyListener) : Emitter :=
  { wildcard := removeEverywhere em.wildcard l,
    specific := removeEverywhere em.specific l }

/-- True when the emitter still holds the listener in some subscription. -/
def holdsListener (em : Emitter) (l : PyListener) : Bool :=
  em.wildcard.any (fun p => p.2.contains l) ||
    em.specific.any (fun p => p.2.contains l)

/-- The state of a `WaitOnEvent` (`plum/event.py:370-394`): the awaited event
string, the received event, and the inherited `WaitOn` outcome. -/
structure WaitOnEventState where
  event : List Char
  receivedEvent : Option (List Char × PyVal)
  outcome : Option (Bool × Option String)

/-- Embeds `WaitOnEvent.event_occurred` (`plum/event.py:383-386`): store the
received event, call `emitter.stop_listening(self._event)` — passing the
event string where the listener argument belongs — and mark the wait on done.
Returns the updated wait on and the updated emitter. -/
def waitOnEvent_event_occurred (w : WaitOnEventState) (em : Emitter)
    (event : List Char) (body : PyVal) : WaitOnEventState × Emitter :=
  ({ w with receivedEvent := some (event, body),
            outcome := some (true, none) },
   stop_listening_all em (.strL w.event))

end Plum


namespace Plum

/-! ### Helper lemmas -/

/-- Registering callbacks on a pending future only appends to the callback
list and never touches the loop queue. -/
theorem addAll_pending (fns : List Nat) :
    ∀ (f : LoopFuture) (q : List Nat), f.state = .PENDING →
      addAll (f, q) fns = ({ f with callbacks := f.callbacks ++ fns }, q) := by
  induction fns with
  | nil =>
    intro f q _
    simp [addAll]
  | cons fn fns ih =>
    intro f q hf
    have hstep : add_done_callback f q fn
        = ({ f with callbacks := f.callbacks ++ [fn] }, q) := by
      simp [add_done_callback, futureDone, hf]
    have := ih { f with callbacks := f.callbacks ++ [fn] } q (by simpa using hf)
    simp only [addAll, List.foldl_cons] at *
    rw [hstep]
    simpa using this

theorem foldl_call_soon (fns : List Nat) :
    ∀ q, fns.foldl call_soon q = q ++ fns := by
  induction fns with
  | nil => intro q; simp
  | cons fn fns ih => intro q; simp [call_soon, ih]

theorem schedule_callbacks_eq (f : LoopFuture) (q : List Nat) :
    schedule_callbacks f q = ({ f with callbacks := [] }, q ++ f.callbacks) := by
  unfold schedule_callbacks
  by_cases h : f.callbacks = []
  · cases f
    simp_all
  · simp [h, foldl_call_soon]

theorem deliverSpecific_ok_head (pre : List PyListener) :
    ∀ rest, (∀ l ∈ pre, invokeListener l = none) →
      deliverSpecific (pre ++ rest)
        = (pre ++ (deliverSpecific rest).1, (deliverSpecific rest).2) := by
  induction pre with
  | nil => intro rest _; simp
  | cons l pre ih =>
    intro rest h
    have hl : invokeListener l = none := h l (by simp)
    have h2 : deliverSpecific (pre.append rest)
        = (pre ++ (deliverSpecific rest).1, (deliverSpecific rest).2) :=
      ih rest (fun x hx => h x (by simp [hx]))
    simp only [List.cons_append, deliverSpecific, hl, h2]

/-- A plain identifier character is none of the characters special to the
pattern translation or to the modelled regex fragment. -/
theorem plainChar_not_meta (c : Char) (h : plainChar c) :
    c ≠ '.' ∧ c ≠ '*' ∧ c ≠ '#' ∧ c ≠ '\\' ∧ c ≠ '+' := by
  rcases h with h | h | h
  · refine ⟨?_, ?_, ?_, ?_, ?_⟩ <;> (intro hc; subst hc; exact absurd h (by decide))
  · subst h; exact ⟨by decide, by decide, by decide, by decide, by decide⟩
  · subst h; exact ⟨by decide, by decide, by decide, by decide, by decide⟩

/-- A star over an atom followed by an always-accepting continuation
accepts. -/
theorem starLoop_true (a : RAtom) (k : List Char → Bool)
    (hk : ∀ t, k t = true) : ∀ s, starLoop a k s = true := by
  intro s
  cases s with
  | nil => simp [starLoop, hk]
  | cons x tl => simp [starLoop, hk]

/-- A trailing `.*` after once-literal elements matches exactly the strings
extending the literals. -/
theorem rmatchE_lits_star (l : List Char) :
    ∀ s, rmatchE (l.map (fun c => RElem.once (.litA c)) ++ [.starA .anyA]) s
      = listIsPref l s := by
  induction l with
  | nil =>
    intro s
    rw [List.map_nil, List.nil_append]
    show starLoop .anyA (rmatchE []) s = listIsPref [] s
    rw [starLoop_true .anyA (rmatchE []) (fun t => rfl) s]
    simp [listIsPref]
  | cons c l ih =>
    intro s
    cases s with
    | nil => simp [rmatchE, listIsPref]
    | cons x xs => simp [rmatchE, atomMatch, listIsPref, ih]

/-- The translation distributes over append. -/
theorem wildcardToRegex_append (l1 l2 : List Char) :
    wildcardToRegex (l1 ++ l2) = wildcardToRegex l1 ++ wildcardToRegex l2 := by
  simp [wildcardToRegex]

/-- Characters that none of the three replaces rewrite pass through the
translation unchanged. -/
theorem wildcardToRegex_plain (l : List Char)
    (h : ∀ c ∈ l, c ≠ '.' ∧ c ≠ '*' ∧ c ≠ '#') :
    wildcardToRegex l = l := by
  induction l with
  | nil => rfl
  | cons c l ih =>
    have hc := h c (by simp)
    have ht := ih (fun x hx => h x (by simp [hx]))
    simp only [wildcardToRegex, List.map_cons, List.flatten_cons] at *
    rw [ht]
    simp [escTr, hc.1, hc.2.1, hc.2.2]

/-- Parsing a run of non-special characters yields once-literal elements, as
long as no postfix operator follows the run. -/
theorem parse_plain_append (l : List Char) :
    ∀ ys, (∀ c ∈ l, c ≠ '\\' ∧ c ≠ '.' ∧ c ≠ '*' ∧ c ≠ '+') → headSafe ys →
      parseRegex (l ++ ys)
        = l.map (fun c => RElem.once (.litA c)) ++ parseRegex ys := by
  induction l with
  | nil => intro ys _ _; simp
  | cons c l ih =>
    intro ys h hys
    have hc := h c (by simp)
    have hrec := ih ys (fun x hx => h x (by simp [hx])) hys
    cases l with
    | nil =>
      cases ys with
      | nil => simp [parseRegex, hc.1, hc.2.1]
      | cons c2 ys2 =>
        have hc2 : c2 ≠ '*' ∧ c2 ≠ '+' := hys
        show parseRegex (c :: c2 :: ys2)
          = RElem.once (.litA c) :: parseRegex (c2 :: ys2)
        rw [parseRegex.eq_def]
        simp [hc.1, hc.2.1, hc2.1, hc2.2]
    | cons c2 l2 =>
      have hc2 := h c2 (by simp)
      simp only [List.cons_append] at hrec ⊢
      rw [List.map_cons, List.cons_append]
      rw [show parseRegex (c :: (c2 :: (l2 ++ ys)))
          = RElem.once (.litA c) :: parseRegex (c2 :: (l2 ++ ys)) by
        rw [parseRegex.eq_def]
        simp [hc.1, hc.2.1, hc2.2.2.1, hc2.2.2.2]]
      rw [hrec]

/-- Parsing an escaped dot yields a once-literal dot, as long as no postfix
operator follows. -/
theorem parse_escdot (ys : List Char) (hys : headSafe ys) :
    parseRegex ('\\' :: '.' :: ys) = .once (.litA '.') :: parseRegex ys := by
  cases ys with
  | nil => rfl
  | cons c2 ys2 =>
    have hc2 : c2 ≠ '*' ∧ c2 ≠ '+' := hys
    simp [parseRegex, hc2.1, hc2.2]

/-- The compiled regex of the pattern `process.<pid>.*` for a plain pid:
once-literals for `process.<pid>.` followed by the star over any
character. -/
theorem compile_pidPattern (pid : List Char) (h : ∀ c ∈ pid, plainChar c) :
    parseRegex (wildcardToRegex (pidPattern pid))
      = (procHead ++ pid ++ ['.']).map (fun c => RElem.once (.litA c))
          ++ [.starA .anyA] := by
  have hpid := fun c hc => plainChar_not_meta c (h c hc)
  have htr : wildcardToRegex (pidPattern pid)
      = ['p', 'r', 'o', 'c', 'e', 's', 's'] ++ '\\' :: '.' ::
          (pid ++ '\\' :: '.' :: '.' :: '*' :: []) := by
    have hbody : wildcardToRegex ['p', 'r', 'o', 'c', 'e', 's', 's']
        = ['p', 'r', 'o', 'c', 'e', 's', 's'] := by decide
    have hp : wildcardToRegex pid = pid :=
      wildcardToRegex_plain pid
        (fun c hc => ⟨(hpid c hc).1, (hpid c hc).2.1, (hpid c hc).2.2.1⟩)
    have hsplit : pidPattern pid
        = ['p', 'r', 'o', 'c', 'e', 's', 's'] ++ ['.'] ++ pid ++ ['.'] ++ ['*'] := by
      simp [pidPattern, procHead]
    rw [hsplit, wildcardToRegex_append, wildcardToRegex_append,
      wildcardToRegex_append, wildcardToRegex_append, hbody, hp]
    simp [wildcardToRegex, escTr]
  have hsafe : headSafe (pid ++ '\\' :: '.' :: '.' :: '*' :: []) := by
    cases pid with
    | nil => exact ⟨by decide, by decide⟩
    | cons c0 rest0 =>
      have h0 := hpid c0 (by simp)
      exact ⟨h0.2.1, h0.2.2.2.2⟩
  rw [htr]
  rw [parse_plain_append ['p', 'r', 'o', 'c', 'e', 's', 's']
    ('\\' :: '.' :: (pid ++ '\\' :: '.' :: '.' :: '*' :: [])) (by decide)
    ⟨by decide, by decide⟩]
  rw [parse_escdot _ hsafe]
  rw [parse_plain_append pid ('\\' :: '.' :: '.' :: '*' :: [])
    (fun c hc => ⟨(hpid c hc).2.2.2.1, (hpid c hc).1, (hpid c hc).2.1,
      (hpid c hc).2.2.2.2⟩)
    ⟨by decide, by decide⟩]
  rw [parse_escdot ['.', '*'] ⟨by decide, by decide⟩]
  have hstar : parseRegex ['.', '*'] = [RElem.starA .anyA] := rfl
  rw [hstar]
  simp [procHead]

theorem listIsPref_append_self (l : List Char) :
    ∀ r, listIsPref l (l ++ r) = true := by
  induction l with
  | nil => intro r; simp [listIsPref]
  | cons c l ih => intro r; simp [listIsPref, ih]

theorem listIsPref_cancel (a : List Char) :
    ∀ l s, listIsPref (a ++ l) (a ++ s) = listIsPref l s := by
  induction a with
  | nil => intro l s; simp
  | cons c a ih => intro l s; simp [listIsPref, ih]

/-- Two dot-free segments followed by a dot agree when one prefixes the
other's continuation. -/
theorem listIsPref_dot_segment (p1 : List Char) :
    ∀ (p2 rest : List Char), (∀ c ∈ p1, c ≠ '.') → (∀ c ∈ p2, c ≠ '.') →
      listIsPref (p1 ++ ['.']) (p2 ++ '.' :: rest) = true → p1 = p2 := by
  induction p1 with
  | nil =>
    intro p2 rest _ h2 hp
    cases p2 with
    | nil => rfl
    | cons c p2 =>
      exfalso
      simp [listIsPref] at hp
      exact h2 c (by simp) hp
  | cons a p1 ih =>
    intro p2 rest h1 h2 hp
    cases p2 with
    | nil =>
      exfalso
      simp [listIsPref] at hp
      exact h1 a (by simp) hp.1.symm
    | cons c p2 =>
      simp only [List.cons_append, listIsPref, Bool.and_eq_true, beq_iff_eq] at hp
      have h3 := ih p2 rest (fun x hx => h1 x (by simp [hx]))
        (fun x hx => h2 x (by simp [hx])) hp.2
      rw [hp.1, h3]

theorem lookup_single (event : List Char) (ls : List PyListener) :
    lookupListeners [(event, ls)] event = some ls := by
  simp [lookupListeners, List.find?]

/-- The pattern consisting of a single `*` matches every string. -/
theorem wildcardMatch_star_any (s : List Char) :
    wildcardMatch ['*'] s = true := by
  show rmatchE [RElem.starA .anyA] s = true
  show starLoop .anyA (rmatchE []) s = true
  exact starLoop_true .anyA (rmatchE []) (fun t => rfl) s

end Plum

namespace Plum

/-! ### The claims -/

/-- C1.  The claim states that a `Task` whose result future has been
cancelled is removed from its event loop by the next `tick()` call, which
returns without invoking `step()`.  The source
(`plum/loop/object.py:85-102`) instead calls `self.loop().remove()` without
the mandatory object argument and has no `return` in the cancelled branch:
the call raises a `TypeError`, so the task stays in the loop, and had the
call succeeded execution would still have fallen through into `step()`.
This theorem evaluates the embedded `tick` on any cancelled task: the tick
raises, the task is not removed, ticking is not stopped and the future is
untouched. -/
theorem tick_cancelled_raises_instead_of_removing (sb : StepBehavior) :
    tick true sb =
      { invokedStep := false, removedFromLoop := false, stoppedTicking := false,
        setException := none, setResult := none, attachedWaitOnCallback := false,
        raised := some (.typeError removeArityMsg) } := rfl

/-- C2.  The claim states that a WAITING process whose wait-on future
completes with a null stored callback transitions to STOPPED, firing
`on_stop`.  In the source, `Waiting._wait_on_done`
(`plum/process_states.py:198-203`) does set the state to `Stopped`, but
`Stopped.enter` (`plum/process_states.py:214-224`) refuses any non-abort
entry whose previous state is not RUNNING, so the transition raises
`RuntimeError` and `on_stop` never fires — contradicting the claim and the
source's own docstring for the `callback` parameter ("Can be None in which
case next state will be STOPPED"). -/
theorem waiting_done_null_callback_illegal (w : PyVal) :
    wait_on_done w PyVal.none =
      .error (.runtimeError "Cannot enter STOPPED from 'ProcessState.WAITING'") := rfl

/-- C3.  Executing the RUNNING state invokes the current exec function and
interprets its return value: a 2-tuple whose first element is a `WaitOn`
moves the process to WAITING with the tuple's second element as the
continuation callback (entering WAITING fires `on_wait`); any other return
value moves the process to STOPPED (entering STOPPED from RUNNING fires
`on_finish` then `on_stop`). -/
theorem running_execute_return_protocol (retval : PyVal) :
    (∀ w cb, retval = .tupleV [.waitOn w, cb] →
        runningExecute retval = .ok (.waiting (.waitOn w) cb, [.on_wait])) ∧
    ((∀ w cb, retval ≠ .tupleV [.waitOn w, cb]) →
        runningExecute retval = .ok (.stopped false none, [.on_finish, .on_stop])) := by
  constructor
  · rintro w cb rfl
    rfl
  · intro h
    have hw : is_wait_retval retval = false := by
      cases retval with
      | tupleV xs =>
        match xs with
        | [] => rfl
        | [a] => rfl
        | [a, b] =>
          cases a with
          | waitOn w => exact absurd rfl (h w b)
          | none => rfl
          | boolV x => rfl
          | intV x => rfl
          | strV x => rfl
          | terminatedV x => rfl
          | tupleV x => rfl
        | a :: b :: c :: rest =>
          simp [is_wait_retval, isinstanceTuple, tupleLen]
      | none => rfl
      | boolV x => rfl
      | intV x => rfl
      | strV x => rfl
      | waitOn x => rfl
      | terminatedV x => rfl
    unfold runningExecute
    rw [hw]
    rfl

/-- Closed instance of `running_execute_return_protocol`, discharging its
hypotheses on a concrete wait return value. -/
theorem running_execute_return_protocol_witness :
    PyVal.tupleV [PyVal.waitOn 3, PyVal.strV "finish"]
        = PyVal.tupleV [PyVal.waitOn 3, PyVal.strV "finish"] ∧
    runningExecute (PyVal.tupleV [PyVal.waitOn 3, PyVal.strV "finish"])
        = .ok (.waiting (.waitOn 3) (.strV "finish"), [.on_wait]) :=
  ⟨rfl, (running_execute_return_protocol _).1 3 (PyVal.strV "finish") rfl⟩

/-- C4, counterexample.  The claim states that for every future a callback
registered while the future is already done is enqueued via `loop.call_soon`
rather than called synchronously.  The process-manager future
(`plum/process_manager.py:104-108`) calls `fn(self)` synchronously when the
process has already terminated. -/
theorem manager_future_synchronous_callback_cex :
    mgr_add_done_callback true 5 = .invokedSynchronously 5 := rfl

/-- C4, amended.  For the loop-level future (`plum/loop/futures.py`):
callbacks registered while pending are stored in order and not yet scheduled;
completing the future enqueues them via `loop.call_soon` exactly once, in
registration order, and clears the list; a callback registered after
completion is enqueued immediately via `loop.call_soon` (not called
synchronously); and the future cannot fire its callbacks a second time, since
`set_result` now raises and `cancel` returns false.  The process-manager
future instead calls the callback synchronously when already terminated
(see the counterexample). -/
theorem loop_future_callback_contract (fns q0 : List Nat) (v : PyVal) (g : Nat) :
    (addAll (pendingFuture, q0) fns).1.callbacks = fns ∧
    (addAll (pendingFuture, q0) fns).2 = q0 ∧
    ∃ f2,
      future_set_result (addAll (pendingFuture, q0) fns).1 q0 v = .ok (f2, q0 ++ fns) ∧
      f2.callbacks = [] ∧ f2.state = .FINISHED ∧ futureDone f2 = true ∧
      add_done_callback f2 q0 g = (f2, call_soon q0 g) ∧
      (∀ v2 q2, future_set_result f2 q2 v2 = .error .invalidState) ∧
      (∀ q2, future_cancel f2 q2 = (false, f2, q2)) := by
  have hadd := addAll_pending fns pendingFuture q0 rfl
  refine ⟨by rw [hadd]; simp [pendingFuture], by rw [hadd], ?_⟩
  refine ⟨{ state := .FINISHED, result := some v, exc := none, callbacks := [] },
    ?_, rfl, rfl, rfl, ?_, ?_, ?_⟩
  · rw [hadd]
    simp [future_set_result, pendingFuture, schedule_callbacks_eq]
  · simp [add_done_callback, futureDone]
  · intro v2 q2
    simp [future_set_result]
  · intro q2
    simp [future_cancel]

/-- C5.  The claim states that on every future type, `result()` re-raises a
stored exception and `exception()` returns it.  The engine future of
`plum/execution_engine.py:183-187` returns its (null) outputs from `result()`
without re-raising, although its own abstract base class documents that
`result` must raise the process's exception; the variant in
`plum/engine/serial.py:67-76` does re-raise.  This theorem evaluates both at
a future whose wrapped call raised. -/
theorem engine_future_result_swallows_exception :
    engineFutureResult (mkEngineFuture (.error (.runtimeError "boom"))) = .ok none ∧
    engineFutureException (mkEngineFuture (.error (.runtimeError "boom")))
      = some (.runtimeError "boom") ∧
    serialFutureResult (mkEngineFuture (.error (.runtimeError "boom")))
      = .error (.runtimeError "boom") :=
  ⟨rfl, rfl, rfl⟩

/-- C6, counterexample.  The claim states that a listener exception that is
not a wrong-signature error is logged and skipped so that the remaining
listeners still receive the event.  In the source
(`plum/event.py:96-118`) there is no such handling: here a wildcard listener
raising `ValueError` makes `event_occurred` propagate the exception, and the
specific listener of the event is never invoked. -/
theorem event_occurred_exception_propagates_cex :
    event_occurred
      ⟨[(['*'], [.callbackL 1 (.raisesValueError "boom")])],
       [(['e'], [.callbackL 2 .ok])]⟩ ['e']
      = ([.callbackL 1 (.raisesValueError "boom")], some (.valueError "boom")) := by
  simp [event_occurred, deliverWildcards, wildcardMatch_star_any, deliverPlain,
    invokeListener]

/-- C6, amended.  During `event_occurred` delivery to the specific listeners
of an event, a wrong-signature (`TypeError`) failure is surfaced as a fatal
`RuntimeError`; any other listener exception is not caught: it propagates out
of `event_occurred` and aborts delivery, so the remaining listeners do not
receive the event. -/
theorem event_occurred_error_handling :
    (∀ (pre post : List PyListener) (i : Nat) (m : String) (event : List Char),
        (∀ l ∈ pre, invokeListener l = none) →
        event_occurred ⟨[], [(event, pre ++ .callbackL i (.raisesValueError m) :: post)]⟩ event
          = (pre ++ [.callbackL i (.raisesValueError m)], some (.valueError m))) ∧
    (∀ (pre post : List PyListener) (i : Nat) (event : List Char),
        (∀ l ∈ pre, invokeListener l = none) →
        event_occurred ⟨[], [(event, pre ++ .callbackL i .raisesTypeError :: post)]⟩ event
          = (pre ++ [.callbackL i .raisesTypeError], some (.runtimeError failedDeliverMsg))) := by
  constructor
  · intro pre post i m event h
    have hspec :
        deliverSpecific (pre ++ PyListener.callbackL i (.raisesValueError m) :: post)
          = (pre ++ (deliverSpecific (PyListener.callbackL i (.raisesValueError m) :: post)).1,
             (deliverSpecific (PyListener.callbackL i (.raisesValueError m) :: post)).2) :=
      deliverSpecific_ok_head pre _ h
    simp only [event_occurred, deliverWildcards, lookup_single]
    rw [hspec]
    simp [deliverSpecific, invokeListener]
  · intro pre post i event h
    have hspec :
        deliverSpecific (pre ++ PyListener.callbackL i .raisesTypeError :: post)
          = (pre ++ (deliverSpecific (PyListener.callbackL i .raisesTypeError :: post)).1,
             (deliverSpecific (PyListener.callbackL i .raisesTypeError :: post)).2) :=
      deliverSpecific_ok_head pre _ h
    simp only [event_occurred, deliverWildcards, lookup_single]
    rw [hspec]
    simp [deliverSpecific, invokeListener]

/-- Closed instance of `event_occurred_error_handling` on a concrete listener
list: the listener after the raiser never receives the event. -/
theorem event_occurred_error_handling_witness :
    (∀ l ∈ [PyListener.callbackL 0 .ok], invokeListener l = none) ∧
    event_occurred
      ⟨[], [(['e'], [PyListener.callbackL 0 .ok,
                     .callbackL 1 (.raisesValueError "boom"),
                     .callbackL 2 .ok])]⟩ ['e']
      = ([.callbackL 0 .ok, .callbackL 1 (.raisesValueError "boom")],
         some (.valueError "boom")) :=
  ⟨by decide,
   event_occurred_error_handling.1 [PyListener.callbackL 0 .ok]
     [PyListener.callbackL 2 .ok] 1 "boom" ['e'] (by decide)⟩

/-- C7, counterexample.  The claim quantifies over every pid, but the
pattern compilation (`plum/event.py:145`) escapes only dots, so a pid
containing a regex metacharacter leaks it into the regex: the subscription
pattern `process.a+.*` compiles to the regex `process\.a+\..*`, which
matches `process.aa.s` — a lifecycle event of the different pid `aa` — and
`event_occurred` delivers that event to the subscriber. -/
theorem wildcard_pid_crosstalk_cex :
    (['a', '+'] : List Char) ≠ ['a', 'a'] ∧
    event_occurred
      ⟨[(pidPattern ['a', '+'], [.callbackL 9 .ok])], []⟩
      (lifecycleEventName ['a', 'a'] ['s'])
      = ([.callbackL 9 .ok], none) :=
  ⟨by decide, by rfl⟩

/-- C7, amended.  For every pid made of plain identifier characters
(alphanumeric, dash or underscore, as UUID pids are), the subscription
pattern `process.<pid>.*` is routed to the wildcard listener map (it contains
`*`), its compiled regex matches every lifecycle event
`process.<pid>.<name>` of that pid, and it matches no lifecycle event of a
different such pid; pids carrying regex metacharacters lose the guarantee,
as the counterexample shows. -/
theorem wildcard_pid_routing (pid pid2 name name2 : List Char)
    (h1 : ∀ c ∈ pid, plainChar c) (h2 : ∀ c ∈ pid2, plainChar c)
    (hne : pid ≠ pid2) :
    containsWildcard (pidPattern pid) = true ∧
    wildcardMatch (pidPattern pid) (lifecycleEventName pid name) = true ∧
    wildcardMatch (pidPattern pid) (lifecycleEventName pid2 name2) = false := by
  have hcomp := compile_pidPattern pid h1
  refine ⟨?_, ?_, ?_⟩
  · simp [containsWildcard, pidPattern]
  · rw [wildcardMatch, hcomp, rmatchE_lits_star]
    have hev : lifecycleEventName pid name = (procHead ++ pid ++ ['.']) ++ name := by
      simp [lifecycleEventName]
    rw [hev, listIsPref_append_self]
  · rw [wildcardMatch, hcomp, rmatchE_lits_star]
    have hsplit : lifecycleEventName pid2 name2
        = procHead ++ (pid2 ++ '.' :: name2) := by
      simp [lifecycleEventName]
    have hsplit2 : procHead ++ pid ++ ['.'] = procHead ++ (pid ++ ['.']) := by
      simp
    rw [hsplit, hsplit2, listIsPref_cancel]
    cases hres : listIsPref (pid ++ ['.']) (pid2 ++ '.' :: name2) with
    | false => rfl
    | true =>
      exact absurd
        (listIsPref_dot_segment pid pid2 name2
          (fun c hc => (plainChar_not_meta c (h1 c hc)).1)
          (fun c hc => (plainChar_not_meta c (h2 c hc)).1) hres)
        hne

/-- Closed instance of `wildcard_pid_routing` on two concrete pids. -/
theorem wildcard_pid_routing_witness :
    (∀ c ∈ ['p', '1'], plainChar c) ∧ (∀ c ∈ ['p', '2'], plainChar c) ∧
    ['p', '1'] ≠ ['p', '2'] ∧
    (containsWildcard (pidPattern ['p', '1']) = true ∧
     wildcardMatch (pidPattern ['p', '1']) (lifecycleEventName ['p', '1'] ['s']) = true ∧
     wildcardMatch (pidPattern ['p', '1']) (lifecycleEventName ['p', '2'] ['s']) = false) :=
  ⟨by decide, by decide, by decide,
   wildcard_pid_routing ['p', '1'] ['p', '2'] ['s'] ['s']
     (by decide) (by decide) (by decide)⟩

/-- C8.  The claim states that after a `WaitOnEvent` receives its awaited
event it unsubscribes with the actual listener callback, so the emitter no
longer holds the wait on as a listener.  The source
(`plum/event.py:383-386`) instead passes the event string where the listener
argument belongs, so the real callback stays subscribed: evaluating the
embedded handler on an emitter holding the callback for event `ping`, the
emitter still holds the callback afterwards, even though the wait on has
recorded its outcome. -/
theorem wait_on_event_listener_not_removed :
    holdsListener
      (waitOnEvent_event_occurred ⟨['p', 'i', 'n', 'g'], none, none⟩
        ⟨[], [(['p', 'i', 'n', 'g'], [PyListener.callbackL 7 .ok])]⟩
        ['p', 'i', 'n', 'g'] PyVal.none).2
      (PyListener.callbackL 7 .ok) = true ∧
    (waitOnEvent_event_occurred ⟨['p', 'i', 'n', 'g'], none, none⟩
        ⟨[], [(['p', 'i', 'n', 'g'], [PyListener.callbackL 7 .ok])]⟩
        ['p', 'i', 'n', 'g'] PyVal.none).1.outcome = some (true, none) :=
  ⟨rfl, rfl⟩

/-- C9.  The claim states that once a `ProcessSpec` is sealed, every
structural mutation fails.  Adding or removing ports fails with
`RuntimeError` and changing the determinism flag fails its assertion, but
`ProcessSpec.validator` (`plum/process_spec.py:195-208`) performs no sealed
check and succeeds in replacing the validator of a sealed spec — contradicting
the claim and `seal()`'s own docstring ("disallowing any further changes"). -/
theorem sealed_spec_validator_unchecked (s : ProcessSpecS) (h : s.sealed = true)
    (name : List Char) (i j fn : Nat) (b : Bool) :
    input_port s name (.input i)
      = .error (.runtimeError "Cannot add an input after spec is sealed") ∧
    remove_input s name
      = .error (.runtimeError "Cannot remove an input after spec is sealed") ∧
    output_port s name (.output j)
      = .error (.runtimeError "Cannot add an output after spec is sealed") ∧
    remove_output s name
      = .error (.runtimeError "Cannot remove an input after spec is sealed") ∧
    set_deterministic s b
      = .error (.assertionError "Cannot change the spec after it is sealed") ∧
    validatorSet s fn = .ok { s with validator := some fn } := by
  refine ⟨?_, ?_, ?_, ?_, ?_, rfl⟩ <;>
    simp [input_port, remove_input, output_port, remove_output,
      set_deterministic, h]

/-- Closed instance of `sealed_spec_validator_unchecked` on a concrete sealed
spec: replacing the validator succeeds. -/
theorem sealed_spec_validator_unchecked_witness :
    ({ inputs := [], outputs := [], deterministic := none, validator := none,
       sealed := true } : ProcessSpecS).sealed = true ∧
    validatorSet
      { inputs := [], outputs := [], deterministic := none, validator := none,
        sealed := true } 4
      = .ok { inputs := [], outputs := [], deterministic := none,
              validator := some 4, sealed := true } :=
  ⟨rfl,
   (sealed_spec_validator_unchecked
     { inputs := [], outputs := [], deterministic := none, validator := none,
       sealed := true } rfl [] 0 0 4 true).2.2.2.2.2⟩

/-- C10.  For every `WaitOn`, `is_done()` is true exactly when `done` has
been called; after `done(success, msg)` the outcome returned by
`get_outcome()` is precisely the pair that was passed; and a second call to
`done` fails its assertion, so a call sequence only completes without an
assertion error when it contains at most one `done`. -/
theorem wait_on_outcome_protocol (calls : List (Bool × Option String))
    (st : WaitOnState) (h : runDone calls = .ok st) :
    (wait_is_done st = true ↔ calls ≠ []) ∧
    wait_get_outcome st = calls.head? ∧
    calls.length ≤ 1 := by
  match calls with
  | [] =>
    simp only [runDone, runDoneFrom, Except.ok.injEq] at h
    subst h
    simp [wait_is_done, wait_get_outcome, waitOnInit]
  | [c] =>
    simp only [runDone, runDoneFrom, wait_done, waitOnInit, if_pos,
      Except.ok.injEq] at h
    subst h
    simp [wait_is_done, wait_get_outcome]
  | c1 :: c2 :: rest =>
    exfalso
    simp [runDone, runDoneFrom, wait_done, waitOnInit] at h

/-- Closed instance of `wait_on_outcome_protocol` on the one-call sequence
`done(False, "err")`. -/
theorem wait_on_outcome_protocol_witness :
    runDone [(false, some "err")] = .ok ⟨some (false, some "err")⟩ ∧
    ((wait_is_done ⟨some (false, some "err")⟩ = true ↔
        [(false, some "err")] ≠ ([] : List (Bool × Option String))) ∧
     wait_get_outcome ⟨some (false, some "err")⟩ = [(false, some "err")].head? ∧
     [((false : Bool), some "err")].length ≤ 1) :=
  ⟨rfl, wait_on_outcome_protocol [(false, some "err")] ⟨some (false, some "err")⟩ rfl⟩

end Plum
